import Mathlib

/-
Verification of the rate-adaptive batch-join orchestrator of the
telegram-channel-joiner repository (src/src/bot.py), as a shallow
embedding in Lean 4.

Modelling conventions:
  * Python strings are Lean `String`s; character-level work is done on
    `List Char` (`String.toList`).
  * Python floats (the backoff delay) are modelled as exact rationals `ℚ`.
  * The Telethon network calls of `UserAccount.join_chats` are replaced by
    an outcome oracle `att : ℕ → Outcome` giving the result of the attempt
    made in loop iteration `i` (Python's `enumerate(chat_links, 1)` index).
  * `asyncio.sleep` calls are recorded in a trace (`List ℚ`) instead of
    suspending.
-/

namespace Joiner

/-! ## Character and string primitives (mirroring Python's str methods) -/

/-- The whitespace characters stripped by Python's `str.strip()` (ASCII). -/
def isPySpace (c : Char) : Bool :=
  c == ' ' || c == '\t' || c == '\n' || c == '\r' || c == '\x0b' || c == '\x0c'

/-- `line.strip()` on the character list. -/
def stripChars (l : List Char) : List Char :=
  ((l.dropWhile isPySpace).reverse.dropWhile isPySpace).reverse

/-- Python `s.strip()`. -/
def pyStrip (s : String) : String := ⟨stripChars s.toList⟩

/-- Python `s.lower()` (ASCII case folding, which is all the code relies on). -/
def lowerStr (s : String) : String := ⟨s.toList.map Char.toLower⟩

/-- Substring test: Python's `needle in haystack`. -/
def containsSub (needle : List Char) : List Char → Bool
  | [] => needle.isEmpty
  | c :: cs => needle.isPrefixOf (c :: cs) || containsSub needle cs

/-- Python `text.split('\n')`: split on newline, keeping empty pieces. -/
def splitLines : List Char → List (List Char)
  | [] => [[]]
  | c :: cs =>
    let r := splitLines cs
    if c == '\n' then [] :: r
    else
      match r with
      | [] => [[c]]
      | x :: xs => (c :: x) :: xs

/-- Characters matched by the regex class `[a-zA-Z0-9_-]`. -/
def idChar (c : Char) : Bool := c.isAlpha || c.isDigit || c == '_' || c == '-'

/-! ## The private-invite regex
`(?:https?://)?(?:t|telegram)\.me/(?:joinchat/|\+)([a-zA-Z0-9_-]+)`
used by `re.search` in `UserAccount.extract_chat_links` (bot.py:369). -/

/-- Match `(?:t|telegram)\.me/` at the head of `s`, returning the rest. -/
def matchHost (s : List Char) : Option (List Char) :=
  if "t.me/".toList.isPrefixOf s then some (s.drop 5)
  else if "telegram.me/".toList.isPrefixOf s then some (s.drop 12)
  else none

/-- Match `(?:joinchat/|\+)` at the head of `s`, returning the rest. -/
def matchInvite (s : List Char) : Option (List Char) :=
  if "joinchat/".toList.isPrefixOf s then some (s.drop 9)
  else if "+".toList.isPrefixOf s then some (s.drop 1)
  else none

/-- Match host, invite marker and the captured `([a-zA-Z0-9_-]+)` group
(greedy, nonempty) at the head of `s`. -/
def matchTail (s : List Char) : Option (List Char) :=
  match matchHost s with
  | none => none
  | some r1 =>
    match matchInvite r1 with
    | none => none
    | some r2 =>
      let run := r2.takeWhile idChar
      if run.isEmpty then none else some run

/-- Match the full pattern anchored at the head of `s`: the optional scheme
is tried first (the regex engine backtracks to the empty alternative when
the remainder fails). -/
def matchAt (s : List Char) : Option (List Char) :=
  if "https://".toList.isPrefixOf s then
    match matchTail (s.drop 8) with
    | some r => some r
    | none => matchTail s
  else if "http://".toList.isPrefixOf s then
    match matchTail (s.drop 7) with
    | some r => some r
    | none => matchTail s
  else matchTail s

/-- `re.search`: leftmost position at which the pattern matches; returns
group 1 (the invite hash). -/
def reSearchInvite : List Char → Option (List Char)
  | [] => none
  | c :: cs =>
    match matchAt (c :: cs) with
    | some r => some r
    | none => reSearchInvite cs

/-! ## Per-line normalisation (`UserAccount.extract_chat_links`, bot.py:356-395) -/

/-- The two kinds of canonical target the normaliser produces. -/
inductive Target where
  | privat (hash : String)
  | publ (username : String)
deriving DecidableEq, Repr

/-- The canonical link string the code appends to its output list. -/
def renderLink : Target → String
  | .privat h => "https://t.me/joinchat/" ++ h
  | .publ u => "https://t.me/" ++ u

/-- `re.sub(r'^(?:https?://)?(?:t\.me/)?', '', line)` (bot.py:383). -/
def stripSchemeTme (line : String) : String :=
  let l := line.toList
  let l1 :=
    if "https://".toList.isPrefixOf l then l.drop 8
    else if "http://".toList.isPrefixOf l then l.drop 7
    else l
  let l2 := if "t.me/".toList.isPrefixOf l1 then l1.drop 5 else l1
  ⟨l2⟩

/-- `line.startswith(('https://', 'http://', 't.me'))`. -/
def startsWithAny (line : String) (ps : List String) : Bool :=
  ps.any (fun p => p.toList.isPrefixOf line.toList)

/-- One loop body of `extract_chat_links` on an already-stripped, nonempty
line: the private branch runs when the line contains `joinchat` or `+` and
the regex matches; otherwise the public branch strips `@` or the
scheme/host prefix and emits the remaining username when nonempty. -/
def processLine (line : String) : Option Target :=
  let l := line.toList
  let priv : Option Target :=
    if containsSub "joinchat".toList l || l.contains '+' then
      match reSearchInvite l with
      | some h => some (Target.privat ⟨h⟩)
      | none => none
    else none
  match priv with
  | some t => some t
  | none =>
    let username :=
      if "@".toList.isPrefixOf l then String.mk (l.drop 1)
      else if startsWithAny line ["https://", "http://", "t.me"] then stripSchemeTme line
      else line
    if username = "" then none else some (Target.publ username)

/-- The accumulating loop of `extract_chat_links`: `seen` is the
`seen_links` set, `acc` the `links` output list. -/
def extractLoop (seen acc : List String) : List String → List String
  | [] => acc
  | line :: rest =>
    let line := pyStrip line
    if line = "" then extractLoop seen acc rest
    else
      match processLine line with
      | none => extractLoop seen acc rest
      | some t =>
        let link := renderLink t
        if link ∈ seen then extractLoop seen acc rest
        else extractLoop (link :: seen) (acc ++ [link]) rest

/-- `UserAccount.extract_chat_links` (bot.py:356-395). -/
def extract_chat_links (text : String) : List String :=
  extractLoop [] [] ((splitLines text.toList).map (fun cs => String.mk cs))

/-- The link a single line contributes before deduplication, if any. -/
def emitOne (line : String) : Option String :=
  let line := pyStrip line
  if line = "" then none else (processLine line).map renderLink

/-- The links the loop emits before deduplication (one per productive line,
in input order). -/
def emittedLinks (text : String) : List String :=
  ((splitLines text.toList).map (fun cs => String.mk cs)).filterMap emitOne

/-- First-occurrence deduplication relative to an already-seen set. -/
def dedupFirst (seen : List String) : List String → List String
  | [] => []
  | x :: xs => if x ∈ seen then dedupFirst seen xs else x :: dedupFirst (x :: seen) xs

/-! ## `UserAccount.join_chats` (bot.py:516-698) -/

/-- Outcome of one Telethon join call, the environment the loop reacts to:
no exception (`joined`), `FloodWaitError` with its `.seconds`, or any other
exception with its message (classified by the substring test
`"captcha" in str(e).lower()`). -/
inductive Outcome where
  | joined
  | floodWait (seconds : ℕ)
  | error (msg : String)
deriving DecidableEq, Repr

/-- One entry of the account's dialog snapshot (`client.get_dialogs()`),
restricted to the fields `join_chats` reads. -/
structure Dialog where
  is_channel : Bool
  username : Option String
deriving DecidableEq, Repr

/-- `link.split('/')[-1]` on the character list: the suffix after the last
slash (the whole string when there is none). -/
def lastSegL (l : List Char) : List Char :=
  ((l.reverse.takeWhile (fun c => !(c == '/'))).reverse)

/-- `link.split('/')[-1]`. -/
def lastSeg (link : String) : String := ⟨lastSegL link.toList⟩

/-- `link.split('/')[-1].lower()`, the key used by the membership check. -/
def lastSegLower (link : String) : String := lowerStr (lastSeg link)

/-- The keys of `existing_chats`:
`{d.entity.username.lower() for d in dialogs if d.is_channel and d.entity.username}`
(bot.py:543) — Python truthiness makes both `None` and `""` fail the guard. -/
def existingChats (dialogs : List Dialog) : List String :=
  dialogs.filterMap (fun d =>
    if d.is_channel then
      match d.username with
      | some u => if u = "" then none else some (lowerStr u)
      | none => none
    else none)

/-- `username in existing_chats` for a link, i.e. the already-member test
applied to the link's last path segment (bot.py:548,590). -/
def memLower (existing : List String) (link : String) : Bool :=
  existing.contains (lastSegLower link)

/-- The `results` accumulator dictionary of `join_chats` (bot.py:517-525). -/
structure Results where
  success : ℕ
  failed : ℕ
  failed_chats : List (String × String)
  captcha_required : List String
  captcha_screenshots : List String
  captcha_solved : List String
  already_member : ℕ
deriving DecidableEq, Repr

/-- The accumulator as created at bot.py:517 (all counters zero). -/
def initResults : Results := ⟨0, 0, [], [], [], [], 0⟩

/-- The error text stored for a flood wait:
`f"Нужно подождать {wait_time} секунд"` (bot.py:636). -/
def floodMsg (w : ℕ) : String := "Нужно подождать " ++ toString w ++ " секунд"

/-- `"captcha" in str(e).lower()` (bot.py:652). -/
def isCaptchaMsg (msg : String) : Bool :=
  containsSub "captcha".toList (lowerStr msg).toList

/-- The mutable state threaded through the join loop: the accumulator, the
instance fields `self.join_count` and `self.current_delay`, the trace of
`asyncio.sleep` durations, and the 1-based `enumerate` index. -/
structure LoopState where
  results : Results
  join_count : ℕ
  current_delay : ℚ
  sleeps : List ℚ
  idx : ℕ
deriving DecidableEq, Repr

/-- The delay update of bot.py:621-626 given the post-increment
`join_count` and the previous `current_delay`. -/
def nextDelay (jc : ℕ) (cur : ℚ) : ℚ :=
  if jc = 1 then 10 else if jc = 2 then 60 else min 600 (cur * (11 / 10))

/-- Successful join (bot.py:617-629): bump `success` and `join_count`,
recompute `current_delay`, sleep it. -/
def stepJoined (st : LoopState) : LoopState :=
  let r := st.results
  let jc := st.join_count + 1
  let d := nextDelay jc st.current_delay
  { st with
      results := { r with success := r.success + 1 },
      join_count := jc,
      current_delay := d,
      sleeps := st.sleeps ++ [d] }

/-- `FloodWaitError` handler (bot.py:631-648): record the target as failed,
sleep `wait_time`, reset `current_delay` to 10 (`join_count` untouched),
and continue with the next target. -/
def stepFlood (link : String) (w : ℕ) (st : LoopState) : LoopState :=
  let r := st.results
  { st with
      results := { r with
        failed := r.failed + 1,
        failed_chats := r.failed_chats ++ [(link, floodMsg w)] },
      sleeps := st.sleeps ++ [(w : ℚ)],
      current_delay := 10 }

/-- Generic exception handler (bot.py:650-665): captcha messages go to
`captcha_required`, everything else to `failed_chats`; both count as
`failed`, neither sleeps. -/
def stepError (link msg : String) (st : LoopState) : LoopState :=
  let r := st.results
  if isCaptchaMsg msg then
    { st with results := { r with
        captcha_required := r.captcha_required ++ [link],
        failed := r.failed + 1 } }
  else
    { st with results := { r with
        failed_chats := r.failed_chats ++ [(link, msg)],
        failed := r.failed + 1 } }

/-- One iteration of the `for i, link in enumerate(chat_links, 1)` loop:
skip silently when the last path segment matches a dialog username
(bot.py:589-592), otherwise attempt and dispatch on the outcome. -/
def stepIter (existing : List String) (att : ℕ → Outcome) (st : LoopState)
    (link : String) : LoopState :=
  if memLower existing link then { st with idx := st.idx + 1 }
  else
    let st' :=
      match att st.idx with
      | Outcome.joined => stepJoined st
      | Outcome.floodWait w => stepFlood link w st
      | Outcome.error msg => stepError link msg st
    { st' with idx := st.idx + 1 }

/-- The whole join loop. -/
def runLoop (existing : List String) (att : ℕ → Outcome) (st : LoopState)
    (links : List String) : LoopState :=
  links.foldl (stepIter existing att) st

/-- The pre-loop pass counting targets already joined (bot.py:546-552). -/
def countAlready (existing : List String) (links : List String) : ℕ :=
  (links.filter (memLower existing)).length

/-- The `try:` body of `join_chats`: the three early `return {"error": ...}`
exits (bot.py:528-539), then the prepass and the loop. Returns the results
together with the sleep trace. -/
def join_chats_try (chat_links : List String) (clientInit clientAuthorized : Bool)
    (dialogs : List Dialog) (att : ℕ → Outcome) : Except String (Results × List ℚ) :=
  if chat_links.isEmpty then Except.error "Список каналов пуст"
  else if !clientInit then Except.error "Клиент не инициализирован"
  else if !clientAuthorized then Except.error "Клиент не авторизован"
  else
    let existing := existingChats dialogs
    let st0 : LoopState :=
      ⟨{ initResults with already_member := countAlready existing chat_links }, 0, 10, [], 1⟩
    let stF := runLoop existing att st0 chat_links
    Except.ok (stF.results, stF.sleeps)

/-- `UserAccount.join_chats` with its trailing `finally: return results`
(bot.py:697-698): in Python a `return` in `finally` supersedes any earlier
`return` and swallows any in-flight exception, so the caller always gets
the accumulator — at the early-error exits it is still the pristine
`initResults` and no sleep has happened. -/
def join_chats (chat_links : List String) (clientInit clientAuthorized : Bool)
    (dialogs : List Dialog) (att : ℕ → Outcome) : Results × List ℚ :=
  match join_chats_try chat_links clientInit clientAuthorized dialogs att with
  | Except.ok r => r
  | Except.error _ => (initResults, [])

/-! ## Progress reporting -/

/-- The throttled in-loop `update_status` closure (bot.py:561-577), with
time as `ℚ` seconds. Arguments: current time, `last_status_update`,
whether `status_msg` is truthy, its `deleted` flag, and whether the
`edit_message` call succeeds. Returns (edit attempted?, new
`last_status_update`): throttled calls (`< 2` seconds since the last
successful render) return without touching anything; a failed edit is
swallowed and leaves `last_status_update` unchanged. -/
def update_status (now last : ℚ) (present deleted editOk : Bool) : Bool × ℚ :=
  if now - last < 2 then (false, last)
  else if present && !deleted then
    if editOk then (true, now) else (true, last)
  else (false, last)

/-- The final-status block after the loop (bot.py:684-692): number of send
attempts for the final summary. The `edit_message` is attempted only when
`status_msg` is truthy and not deleted; if it raises, one fallback
`send_message` is attempted (its own failure is swallowed). -/
def finalAttempts (present deleted editOk : Bool) : ℕ :=
  if present && !deleted then
    if editOk then 1 else 2
  else 0

/-! ## `SessionManager` (bot.py:66-108) -/

/-- The lock bookkeeping of `SessionManager` plus the lock files on disk:
`locks` holds the names keyed in `self.locks`, `lock_files` the
`self.lock_files` mapping, `fs` the lock files that exist. -/
structure SMState where
  locks : List String
  lock_files : List (String × String)
  fs : List String
deriving DecidableEq, Repr

/-- `SessionManager.release_lock` (bot.py:88-103): a no-op when the name is
not held; otherwise pop the lock and its recorded file path, and remove
the file if it exists (an `OSError` there is swallowed). All exceptions
are caught, so the call never raises. -/
def release_lock (st : SMState) (name : String) : SMState :=
  if name ∈ st.locks then
    match st.lock_files.lookup name with
    | some path =>
      if path ∈ st.fs then
        ⟨st.locks.filter (fun n => !(n == name)),
         st.lock_files.filter (fun p => !(p.1 == name)), st.fs.erase path⟩
      else
        ⟨st.locks.filter (fun n => !(n == name)),
         st.lock_files.filter (fun p => !(p.1 == name)), st.fs⟩
    | none =>
      ⟨st.locks.filter (fun n => !(n == name)),
       st.lock_files.filter (fun p => !(p.1 == name)), st.fs⟩
  else st

/-! ## Lemmas about the normaliser -/

lemma mem_dedupFirst (l : List String) : ∀ (seen : List String) (x : String),
    x ∈ dedupFirst seen l ↔ x ∈ l ∧ x ∉ seen := by
  induction l with
  | nil => intro seen x; simp [dedupFirst]
  | cons a as ih =>
    intro seen x
    by_cases h : a ∈ seen
    · rw [dedupFirst, if_pos h, ih]
      constructor
      · rintro ⟨hx, hn⟩; exact ⟨List.mem_cons_of_mem a hx, hn⟩
      · rintro ⟨hx, hn⟩
        rcases List.mem_cons.mp hx with he | hx'
        · exact absurd (he ▸ h) hn
        · exact ⟨hx', hn⟩
    · rw [dedupFirst, if_neg h]
      constructor
      · intro hx
        rcases List.mem_cons.mp hx with he | hx'
        · exact ⟨he ▸ List.mem_cons_self a as, he ▸ h⟩
        · have := (ih (a :: seen) x).mp hx'
          exact ⟨List.mem_cons_of_mem a this.1,
                 fun hc => this.2 (List.mem_cons_of_mem a hc)⟩
      · rintro ⟨hx, hn⟩
        rcases List.mem_cons.mp hx with he | hx'
        · exact he ▸ List.mem_cons_self a _
        · by_cases hxa : x = a
          · exact hxa ▸ List.mem_cons_self a _
          · exact List.mem_cons_of_mem a
              ((ih (a :: seen) x).mpr ⟨hx', by
                intro hc
                rcases List.mem_cons.mp hc with h1 | h2
                · exact hxa h1
                · exact hn h2⟩)

lemma nodup_dedupFirst (l : List String) : ∀ (seen : List String),
    (dedupFirst seen l).Nodup := by
  induction l with
  | nil => intro seen; simp [dedupFirst]
  | cons a as ih =>
    intro seen
    by_cases h : a ∈ seen
    · rw [dedupFirst, if_pos h]; exact ih seen
    · rw [dedupFirst, if_neg h]
      refine List.nodup_cons.mpr ⟨?_, ih (a :: seen)⟩
      intro hc
      exact ((mem_dedupFirst as (a :: seen) a).mp hc).2 (List.mem_cons_self a seen)

lemma dedupFirst_sublist (l : List String) : ∀ (seen : List String),
    (dedupFirst seen l).Sublist l := by
  induction l with
  | nil => intro seen; simp [dedupFirst]
  | cons a as ih =>
    intro seen
    by_cases h : a ∈ seen
    · rw [dedupFirst, if_pos h]; exact (ih seen).cons a
    · rw [dedupFirst, if_neg h]; exact (ih (a :: seen)).cons₂ a

lemma extractLoop_eq (lines : List String) : ∀ (seen acc : List String),
    extractLoop seen acc lines = acc ++ dedupFirst seen (lines.filterMap emitOne) := by
  induction lines with
  | nil => intro seen acc; simp [extractLoop, dedupFirst]
  | cons line rest ih =>
    intro seen acc
    rw [List.filterMap_cons]
    by_cases h : pyStrip line = ""
    · rw [show extractLoop seen acc (line :: rest) = extractLoop seen acc rest by
        rw [extractLoop]; simp [h]]
      rw [show emitOne line = none by rw [emitOne]; simp [h]]
      exact ih seen acc
    · rw [show emitOne line = (processLine (pyStrip line)).map renderLink by
        rw [emitOne]; simp [h]]
      cases hp : processLine (pyStrip line) with
      | none =>
        rw [show extractLoop seen acc (line :: rest) = extractLoop seen acc rest by
          rw [extractLoop]; simp [h, hp]]
        exact ih seen acc
      | some t =>
        by_cases hm : renderLink t ∈ seen
        · rw [show extractLoop seen acc (line :: rest) = extractLoop seen acc rest by
            rw [extractLoop]; simp [h, hp, hm]]
          rw [ih seen acc]
          simp [dedupFirst, hm]
        · rw [show extractLoop seen acc (line :: rest)
              = extractLoop (renderLink t :: seen) (acc ++ [renderLink t]) rest by
            rw [extractLoop]; simp [h, hp, hm]]
          rw [ih (renderLink t :: seen) (acc ++ [renderLink t])]
          simp [dedupFirst, hm]

/-- C4 counterexample: the code deduplicates on the exact canonical link
string (case-sensitive), not on `(canonical_form, identifier.lower())`:
the input lines `@Foo`, `foo`, `https://t.me/FOO` produce three distinct
PUBLIC_USERNAME links whose lowercased forms coincide, not one. -/
theorem C4_dedup_counterexample :
    extract_chat_links "@Foo\nfoo\nhttps://t.me/FOO"
      = ["https://t.me/Foo", "https://t.me/foo", "https://t.me/FOO"]
    ∧ (extract_chat_links "@Foo\nfoo\nhttps://t.me/FOO").length ≠ 1
    ∧ ¬ ((extract_chat_links "@Foo\nfoo\nhttps://t.me/FOO").map lowerStr).Nodup := by
  refine ⟨by decide, by decide, by decide⟩

/-- C4 (amended): for every input text the normaliser's output is the
first-occurrence deduplication of the per-line emitted links, so it
contains no two entries that are equal as exact strings and preserves
first-seen order (it is a subsequence of the emitted sequence with the
same members); deduplication is case-sensitive on the full canonical
link, so `@Foo`, `foo` and `https://t.me/FOO` yield three targets. -/
theorem C4_dedup_amended (text : String) :
    extract_chat_links text = dedupFirst [] (emittedLinks text)
    ∧ (extract_chat_links text).Nodup
    ∧ (extract_chat_links text).Sublist (emittedLinks text)
    ∧ ∀ x, x ∈ extract_chat_links text ↔ x ∈ emittedLinks text := by
  have he : extract_chat_links text = dedupFirst [] (emittedLinks text) := by
    rw [extract_chat_links, extractLoop_eq]
    rw [emittedLinks]
    simp
  refine ⟨he, ?_, ?_, ?_⟩
  · rw [he]; exact nodup_dedupFirst _ _
  · rw [he]; exact dedupFirst_sublist _ _
  · intro x
    rw [he, mem_dedupFirst]
    simp

/-- C6: both `https://t.me/joinchat/AbC123` and `t.me/+AbC123` normalise to
exactly one PRIVATE_INVITE target with identifier `AbC123`, rendered as
`https://t.me/joinchat/AbC123`, and re-normalising that canonical form
yields the same single descriptor (idempotence). -/
theorem C6_private_invite :
    processLine "https://t.me/joinchat/AbC123" = some (Target.privat "AbC123")
    ∧ processLine "t.me/+AbC123" = some (Target.privat "AbC123")
    ∧ extract_chat_links "https://t.me/joinchat/AbC123" = ["https://t.me/joinchat/AbC123"]
    ∧ extract_chat_links "t.me/+AbC123" = ["https://t.me/joinchat/AbC123"]
    ∧ extract_chat_links (renderLink (Target.privat "AbC123"))
        = [renderLink (Target.privat "AbC123")] := by
  refine ⟨by decide, by decide, by decide, by decide, by decide⟩

/-! ## Lemmas about the join loop -/

lemma runLoop_cons (existing : List String) (att : ℕ → Outcome) (st : LoopState)
    (link : String) (links : List String) :
    runLoop existing att st (link :: links)
      = runLoop existing att (stepIter existing att st link) links := rfl

lemma stepIter_already (existing : List String) (att : ℕ → Outcome) (st : LoopState)
    (link : String) :
    (stepIter existing att st link).results.already_member
      = st.results.already_member := by
  rw [stepIter]
  cases h : memLower existing link
  · simp only [Bool.false_eq_true, if_false]
    cases att st.idx with
    | joined => simp [stepJoined]
    | floodWait w => simp [stepFlood]
    | error m =>
      simp only [stepError]
      by_cases hc : isCaptchaMsg m <;> simp [hc]
  · simp

lemma stepIter_sf (existing : List String) (att : ℕ → Outcome) (st : LoopState)
    (link : String) :
    (stepIter existing att st link).results.success
      + (stepIter existing att st link).results.failed
      = st.results.success + st.results.failed
        + (if memLower existing link then 0 else 1) := by
  rw [stepIter]
  cases h : memLower existing link
  · simp only [Bool.false_eq_true, if_false]
    cases att st.idx with
    | joined => simp [stepJoined]; omega
    | floodWait w => simp [stepFlood]; omega
    | error m =>
      simp only [stepError]
      by_cases hc : isCaptchaMsg m <;> simp [hc] <;> omega
  · simp

lemma runLoop_sf (existing : List String) (att : ℕ → Outcome) (links : List String) :
    ∀ st : LoopState,
    (runLoop existing att st links).results.success
      + (runLoop existing att st links).results.failed
      = st.results.success + st.results.failed
        + (links.filter (fun l => !(memLower existing l))).length := by
  induction links with
  | nil => intro st; simp [runLoop]
  | cons a as ih =>
    intro st
    rw [runLoop_cons, ih]
    have h := stepIter_sf existing att st a
    rw [List.filter_cons]
    cases hm : memLower existing a
    · rw [hm] at h
      simp only [Bool.false_eq_true, if_false] at h
      simp only [Bool.not_false, if_pos, List.length_cons]
      omega
    · rw [hm] at h
      simp only [if_pos] at h
      simp only [Bool.not_true, Bool.false_eq_true, if_false]
      omega

lemma runLoop_already (existing : List String) (att : ℕ → Outcome) (links : List String) :
    ∀ st : LoopState,
    (runLoop existing att st links).results.already_member
      = st.results.already_member := by
  induction links with
  | nil => intro st; simp [runLoop]
  | cons a as ih =>
    intro st
    rw [runLoop_cons, ih, stepIter_already]

lemma filter_split (p : String → Bool) (l : List String) :
    (l.filter p).length + (l.filter (fun a => !(p a))).length = l.length := by
  induction l with
  | nil => simp
  | cons a as ih =>
    rw [List.filter_cons, List.filter_cons]
    cases h : p a <;> simp [h] <;> omega

/-- C2: for every nonempty target list, connected and authorised client,
dialog snapshot and outcome environment, the returned counters satisfy
`success + failed + already_member = number of input targets`: every
target ends in exactly one outcome bucket and none is lost. -/
theorem C2_conservation (links : List String) (dialogs : List Dialog)
    (att : ℕ → Outcome) (hne : links ≠ []) :
    ((join_chats links true true dialogs att).1).success
      + ((join_chats links true true dialogs att).1).failed
      + ((join_chats links true true dialogs att).1).already_member
      = links.length := by
  have hE : links.isEmpty = false := by
    cases links with
    | nil => exact absurd rfl hne
    | cons a l => rfl
  simp only [join_chats, join_chats_try, hE, Bool.not_true, Bool.false_eq_true,
    if_false]
  rw [runLoop_sf, runLoop_already]
  simp only [initResults]
  rw [countAlready]
  have h := filter_split (memLower (existingChats dialogs)) links
  omega

/-- C2 witness: a concrete one-target run satisfying the conservation law. -/
theorem C2_conservation_witness :
    ((join_chats ["https://t.me/aaa"] true true [] (fun _ => Outcome.joined)).1).success
      + ((join_chats ["https://t.me/aaa"] true true [] (fun _ => Outcome.joined)).1).failed
      + ((join_chats ["https://t.me/aaa"] true true [] (fun _ => Outcome.joined)).1).already_member
      = 1 :=
  C2_conservation ["https://t.me/aaa"] [] (fun _ => Outcome.joined) (by decide)

/-! ## The backoff ramp -/

/-- The delay produced by the `n`-th consecutive successful join of a fresh
run (`delayAfter 0` is the initial `current_delay` of 10, set at
bot.py:557). -/
def delayAfter : ℕ → ℚ
  | 0 => 10
  | n + 1 => nextDelay (n + 1) (delayAfter n)

/-- The sleep trace left by `m` consecutive successful joins. -/
def joinedSleeps (m : ℕ) : List ℚ := (List.range m).map (fun k => delayAfter (k + 1))

lemma joinedSleeps_succ (m : ℕ) :
    joinedSleeps m ++ [delayAfter (m + 1)] = joinedSleeps (m + 1) := by
  rw [joinedSleeps, joinedSleeps, List.range_succ, List.map_append]
  rfl

lemma delayAfter_bounds : ∀ n, 10 ≤ delayAfter n ∧ delayAfter n ≤ 600 := by
  intro n
  induction n with
  | zero => norm_num [delayAfter]
  | succ m ih =>
    rw [show delayAfter (m + 1) = nextDelay (m + 1) (delayAfter m) from rfl, nextDelay]
    by_cases h1 : m + 1 = 1
    · rw [if_pos h1]; norm_num
    · rw [if_neg h1]
      by_cases h2 : m + 1 = 2
      · rw [if_pos h2]; norm_num
      · rw [if_neg h2]
        constructor
        · refine le_min (by norm_num) ?_
          nlinarith [ih.1]
        · exact min_le_left _ _

lemma runLoop_all_joined : ∀ (links : List String) (res : Results) (m i : ℕ),
    runLoop [] (fun _ => Outcome.joined) ⟨res, m, delayAfter m, joinedSleeps m, i⟩ links
      = ⟨⟨res.success + links.length, res.failed, res.failed_chats, res.captcha_required,
          res.captcha_screenshots, res.captcha_solved, res.already_member⟩,
         m + links.length, delayAfter (m + links.length), joinedSleeps (m + links.length),
         i + links.length⟩ := by
  intro links
  induction links with
  | nil => intro res m i; rfl
  | cons a as ih =>
    intro res m i
    rw [runLoop_cons]
    have hstep : stepIter [] (fun _ => Outcome.joined) ⟨res, m, delayAfter m, joinedSleeps m, i⟩ a
        = ⟨⟨res.success + 1, res.failed, res.failed_chats, res.captcha_required,
            res.captcha_screenshots, res.captcha_solved, res.already_member⟩,
           m + 1, delayAfter (m + 1), joinedSleeps (m + 1), i + 1⟩ := by
      rw [← joinedSleeps_succ]
      rfl
    rw [hstep, ih]
    dsimp only
    rw [List.length_cons]
    have e1 : m + 1 + as.length = m + (as.length + 1) := by omega
    have e2 : res.success + 1 + as.length = res.success + (as.length + 1) := by omega
    have e3 : i + 1 + as.length = i + (as.length + 1) := by omega
    rw [e1, e2, e3]

lemma countAlready_nil : ∀ links : List String, countAlready [] links = 0 := by
  intro links
  induction links with
  | nil => rfl
  | cons a as ih =>
    rw [countAlready, List.filter_cons] at *
    rw [show memLower [] a = false from rfl]
    simpa using ih

/-- C5: starting fresh, the delays after consecutive successful joins are
10, 60, 66, 72.6, ...; from the third join on each delay is
`min(previous * 1.1, 600)`; the sequence is monotonically non-decreasing
and bounded by 600; and a run of `join_chats` whose attempts all succeed
sleeps exactly this sequence. -/
theorem C5_backoff (n : ℕ) :
    delayAfter 1 = 10 ∧ delayAfter 2 = 60 ∧ delayAfter 3 = 66
    ∧ delayAfter 4 = 363 / 5
    ∧ (∀ k, 2 ≤ k → delayAfter (k + 1) = min 600 (delayAfter k * (11 / 10)))
    ∧ (∀ k, 1 ≤ k → delayAfter k ≤ delayAfter (k + 1))
    ∧ (∀ k, 1 ≤ k → delayAfter k ≤ 600)
    ∧ (join_chats (List.replicate n "https://t.me/chan") true true []
        (fun _ => Outcome.joined)).2 = (List.range n).map (fun k => delayAfter (k + 1)) := by
  refine ⟨by norm_num [delayAfter, nextDelay],
          by norm_num [delayAfter, nextDelay],
          by norm_num [delayAfter, nextDelay],
          by norm_num [delayAfter, nextDelay],
          ?_, ?_, ?_, ?_⟩
  · intro k hk
    have h1 : k + 1 ≠ 1 := by omega
    have h2 : k + 1 ≠ 2 := by omega
    rw [show delayAfter (k + 1) = nextDelay (k + 1) (delayAfter k) from rfl, nextDelay,
      if_neg h1, if_neg h2]
  · intro k hk
    cases k with
    | zero => exact absurd hk (by omega)
    | succ j =>
      cases j with
      | zero => norm_num [delayAfter, nextDelay]
      | succ m =>
        have hb := delayAfter_bounds (m + 2)
        have h1 : m + 2 + 1 ≠ 1 := by omega
        have h2 : m + 2 + 1 ≠ 2 := by omega
        rw [show delayAfter (m + 2 + 1) = nextDelay (m + 2 + 1) (delayAfter (m + 2)) from rfl,
          nextDelay, if_neg h1, if_neg h2]
        refine le_min hb.2 ?_
        nlinarith [hb.1]
  · intro k hk
    exact (delayAfter_bounds k).2
  · cases n with
    | zero => rfl
    | succ m =>
      have hE : (List.replicate (m + 1) "https://t.me/chan").isEmpty = false := rfl
      simp only [join_chats, join_chats_try, hE, Bool.not_true, Bool.false_eq_true,
        if_false]
      rw [show existingChats [] = [] from rfl,
        countAlready_nil (List.replicate (m + 1) "https://t.me/chan")]
      rw [show (⟨{ initResults with already_member := 0 }, 0, 10, [], 1⟩ : LoopState)
            = ⟨initResults, 0, delayAfter 0, joinedSleeps 0, 1⟩ from rfl]
      rw [runLoop_all_joined]
      rw [List.length_replicate, Nat.zero_add, joinedSleeps]

/-- C5 witness: the backoff conjuncts with hypotheses, instantiated. -/
theorem C5_backoff_witness :
    delayAfter 3 = min 600 (delayAfter 2 * (11 / 10))
    ∧ delayAfter 3 ≤ delayAfter 4
    ∧ delayAfter 4 ≤ 600 :=
  ⟨(C5_backoff 0).2.2.2.2.1 2 (by omega),
   (C5_backoff 0).2.2.2.2.2.1 3 (by omega),
   (C5_backoff 0).2.2.2.2.2.2.1 4 (by omega)⟩

/-! ## Flood-wait behaviour -/

/-- The outcome environment of the C1 counterexample: the second attempt is
rate limited with `wait_seconds = 120`, every other attempt succeeds. -/
def C1att : ℕ → Outcome :=
  fun i => if i = 2 then Outcome.floodWait 120 else Outcome.joined

/-- C1 counterexample: joined, RateLimited(120), joined. The sleeps are
[10, 120, 60] — the flood sleep is 120 and `current_delay` resets to 10,
but `join_count` is NOT reset to zero, so the next `Joined` outcome
produces delay 60 (the second-join delay), not 10 as the claim states. -/
theorem C1_flood_reset_counterexample :
    (join_chats ["https://t.me/aaa", "https://t.me/bbb", "https://t.me/ccc"]
      true true [] C1att).2 = [10, 120, 60]
    ∧ (join_chats ["https://t.me/aaa", "https://t.me/bbb", "https://t.me/ccc"]
      true true [] C1att).2 ≠ [10, 120, 10] := by
  refine ⟨by decide, by decide⟩

/-- C1 (amended): on a RateLimited outcome carrying `wait_seconds = w` the
iteration's sleep is exactly `w` and `current_delay` resets to the base
delay 10, but the consecutive-success counter `join_count` is left
unchanged; consequently the next `Joined` outcome produces delay 10 only
when no join succeeded before, 60 after exactly one prior success, and
`min 600 (10 * 1.1) = 11` after two or more. -/
theorem C1_flood_reset_amended (existing : List String) (att : ℕ → Outcome)
    (st : LoopState) (link : String) (w : ℕ)
    (hskip : memLower existing link = false)
    (hatt : att st.idx = Outcome.floodWait w) :
    stepIter existing att st link = { stepFlood link w st with idx := st.idx + 1 }
    ∧ (stepFlood link w st).sleeps = st.sleeps ++ [(w : ℚ)]
    ∧ (stepFlood link w st).current_delay = 10
    ∧ (stepFlood link w st).join_count = st.join_count
    ∧ (stepJoined (stepFlood link w st)).current_delay
        = (if st.join_count + 1 = 1 then (10 : ℚ)
           else if st.join_count + 1 = 2 then 60 else 11) := by
  refine ⟨?_, rfl, rfl, rfl, ?_⟩
  · rw [stepIter, hskip]
    simp [hatt]
  · rw [show (stepJoined (stepFlood link w st)).current_delay
        = nextDelay (st.join_count + 1) 10 from rfl, nextDelay]
    by_cases h1 : st.join_count + 1 = 1
    · rw [if_pos h1, if_pos h1]
    · rw [if_neg h1, if_neg h1]
      by_cases h2 : st.join_count + 1 = 2
      · rw [if_pos h2, if_pos h2]
      · rw [if_neg h2, if_neg h2]
        norm_num

/-- C1 witness: the amended flood-wait behaviour at a concrete state with
one prior success. -/
theorem C1_flood_reset_amended_witness :
    (stepFlood "https://t.me/bbb" 120 (⟨initResults, 1, 60, [10], 2⟩ : LoopState)).current_delay = 10
    ∧ (stepJoined (stepFlood "https://t.me/bbb" 120
        (⟨initResults, 1, 60, [10], 2⟩ : LoopState))).current_delay
        = (if (1 : ℕ) + 1 = 1 then (10 : ℚ) else if (1 : ℕ) + 1 = 2 then 60 else 11) :=
  ⟨(C1_flood_reset_amended [] (fun _ => Outcome.floodWait 120)
      ⟨initResults, 1, 60, [10], 2⟩ "https://t.me/bbb" 120 rfl rfl).2.2.1,
   (C1_flood_reset_amended [] (fun _ => Outcome.floodWait 120)
      ⟨initResults, 1, 60, [10], 2⟩ "https://t.me/bbb" 120 rfl rfl).2.2.2.2⟩

/-- The outcome environment of the C3 counterexample: the first attempt is
rate limited with `wait_seconds = 30`, every other attempt succeeds. -/
def C3att : ℕ → Outcome :=
  fun i => if i = 1 then Outcome.floodWait 30 else Outcome.joined

/-- C3 counterexample: a single RateLimited outcome on the first of two
targets. The run does continue (the second target is joined and the flood
sleep of 30 happens), but `failed` is incremented to 1 and the target is
appended to `failed_chats` immediately, on the first occurrence — the
claim says that would happen only if the rate limit recurred. -/
theorem C3_flood_failed_counterexample :
    (join_chats ["https://t.me/aaa", "https://t.me/bbb"] true true [] C3att)
      = (⟨1, 1, [("https://t.me/aaa", floodMsg 30)], [], [], [], 0⟩, [30, 10])
    ∧ (join_chats ["https://t.me/aaa", "https://t.me/bbb"] true true [] C3att).1.failed ≠ 0 := by
  refine ⟨by decide, by decide⟩

/-- C3 (amended): a RateLimited outcome is recovered within the same run —
the loop sleeps exactly `wait_seconds` and continues with the remaining
targets, and the target is not retried — but it is surfaced as a failure
immediately: `failed` is incremented by one and the target is appended to
`failed_chats` on the first occurrence. -/
theorem C3_flood_failed_amended (existing : List String) (att : ℕ → Outcome)
    (st : LoopState) (link : String) (w : ℕ) (rest : List String)
    (hskip : memLower existing link = false)
    (hatt : att st.idx = Outcome.floodWait w) :
    runLoop existing att st (link :: rest)
      = runLoop existing att { stepFlood link w st with idx := st.idx + 1 } rest
    ∧ (stepFlood link w st).results.failed = st.results.failed + 1
    ∧ (stepFlood link w st).results.failed_chats
        = st.results.failed_chats ++ [(link, floodMsg w)]
    ∧ (stepFlood link w st).sleeps = st.sleeps ++ [(w : ℚ)]
    ∧ (stepFlood link w st).results.success = st.results.success := by
  refine ⟨?_, rfl, rfl, rfl, rfl⟩
  rw [runLoop_cons]
  rw [show stepIter existing att st link = { stepFlood link w st with idx := st.idx + 1 } by
    rw [stepIter, hskip]; simp [hatt]]

/-- C3 witness: the amended flood-wait accounting at a concrete state. -/
theorem C3_flood_failed_amended_witness :
    (stepFlood "https://t.me/aaa" 30 (⟨initResults, 0, 10, [], 1⟩ : LoopState)).results.failed
      = initResults.failed + 1
    ∧ (stepFlood "https://t.me/aaa" 30
        (⟨initResults, 0, 10, [], 1⟩ : LoopState)).results.success = initResults.success :=
  ⟨(C3_flood_failed_amended [] (fun _ => Outcome.floodWait 30)
      ⟨initResults, 0, 10, [], 1⟩ "https://t.me/aaa" 30 [] rfl rfl).2.1,
   (C3_flood_failed_amended [] (fun _ => Outcome.floodWait 30)
      ⟨initResults, 0, 10, [], 1⟩ "https://t.me/aaa" 30 [] rfl rfl).2.2.2.2⟩

/-! ## The membership filter -/

lemma toList_append (s t : String) : (s ++ t).toList = s.toList ++ t.toList := by
  cases s; cases t; rfl

lemma mk_toList (s : String) : String.mk s.toList = s := by
  cases s; rfl

lemma takeWhile_append_all (p : Char → Bool) :
    ∀ (a b : List Char), (∀ c ∈ a, p c = true) →
    (a ++ b).takeWhile p = a ++ b.takeWhile p := by
  intro a
  induction a with
  | nil => intro b _; rfl
  | cons x xs ih =>
    intro b h
    have hx : p x = true := h x (List.mem_cons_self x xs)
    rw [List.cons_append, List.takeWhile_cons, hx]
    rw [ih b (fun c hc => h c (List.mem_cons_of_mem x hc))]
    rfl

lemma lastSegL_invite (h : List Char) (hslash : '/' ∉ h) :
    lastSegL ("https://t.me/joinchat/".toList ++ h) = h := by
  rw [lastSegL, List.reverse_append]
  have hall : ∀ c ∈ h.reverse, (!(c == '/')) = true := by
    intro c hc
    have hm : c ∈ h := List.mem_reverse.mp hc
    have hne : ¬ c = '/' := fun he => hslash (he ▸ hm)
    simp [hne]
  rw [takeWhile_append_all _ _ _ hall]
  rw [show "https://t.me/joinchat/".toList.reverse.takeWhile (fun c => !(c == '/')) = []
    from rfl]
  simp

/-- C7 counterexample: a PRIVATE_INVITE target whose invite hash collides
(case-insensitively) with a dialog username is classified already-member
and never attempted: with a dialog for channel username `abc123`, the run
on `https://t.me/joinchat/AbC123` skips the target (`already_member = 1`,
no attempt, no sleep), contradicting "never classified as already-member
and always passed through". -/
theorem C7_membership_counterexample :
    join_chats ["https://t.me/joinchat/AbC123"] true true
      [⟨true, some "abc123"⟩] (fun _ => Outcome.joined)
      = ({ initResults with already_member := 1 }, [])
    ∧ (join_chats ["https://t.me/joinchat/AbC123"] true true
        [⟨true, some "abc123"⟩] (fun _ => Outcome.joined)).1.success = 0 := by
  refine ⟨by decide, by decide⟩

/-- C7 (amended): the membership filter keys every target — private
invites included — by the lowercased last path segment of its link: a
PRIVATE_INVITE link `https://t.me/joinchat/<hash>` is skipped as
already-member exactly when `lower(hash)` is among the lowercased dialog
channel usernames, and is passed through for an attempt (exactly one of
success/failed is incremented) otherwise. -/
theorem C7_membership_amended (dialogs : List Dialog) (att : ℕ → Outcome)
    (st : LoopState) (h : String) (hslash : '/' ∉ h.toList) :
    lastSegLower ("https://t.me/joinchat/" ++ h) = lowerStr h
    ∧ memLower (existingChats dialogs) ("https://t.me/joinchat/" ++ h)
        = (existingChats dialogs).contains (lowerStr h)
    ∧ (memLower (existingChats dialogs) ("https://t.me/joinchat/" ++ h) = true →
        stepIter (existingChats dialogs) att st ("https://t.me/joinchat/" ++ h)
          = { st with idx := st.idx + 1 })
    ∧ (memLower (existingChats dialogs) ("https://t.me/joinchat/" ++ h) = false →
        (stepIter (existingChats dialogs) att st ("https://t.me/joinchat/" ++ h)).results.success
          + (stepIter (existingChats dialogs) att st
              ("https://t.me/joinchat/" ++ h)).results.failed
          = st.results.success + st.results.failed + 1) := by
  have hseg : lastSegLower ("https://t.me/joinchat/" ++ h) = lowerStr h := by
    rw [lastSegLower, lastSeg, toList_append, lastSegL_invite h.toList hslash, mk_toList]
  refine ⟨hseg, by rw [memLower, hseg], ?_, ?_⟩
  · intro hm
    rw [stepIter, hm]
    simp
  · intro hm
    have := stepIter_sf (existingChats dialogs) att st ("https://t.me/joinchat/" ++ h)
    rw [hm] at this
    simpa using this

/-- C7 witness: the amended membership rule at a concrete dialog list and
hash, in both the colliding and the non-colliding case. -/
theorem C7_membership_amended_witness :
    lastSegLower ("https://t.me/joinchat/" ++ "AbC123") = lowerStr "AbC123"
    ∧ (stepIter (existingChats [⟨true, some "abc123"⟩]) (fun _ => Outcome.joined)
        ⟨initResults, 0, 10, [], 1⟩ ("https://t.me/joinchat/" ++ "AbC123")
        = { (⟨initResults, 0, 10, [], 1⟩ : LoopState) with idx := 1 + 1 }) :=
  ⟨(C7_membership_amended [⟨true, some "abc123"⟩] (fun _ => Outcome.joined)
      ⟨initResults, 0, 10, [], 1⟩ "AbC123" (by decide)).1,
   (C7_membership_amended [⟨true, some "abc123"⟩] (fun _ => Outcome.joined)
      ⟨initResults, 0, 10, [], 1⟩ "AbC123" (by decide)).2.2.1 (by decide)⟩

/-! ## The finally-return contract -/

/-- C8: `join_chats` always returns the accumulator: the `finally: return
results` supersedes every early `return {"error": ...}` (at which point the
accumulator is still pristine and no sleep has happened), and a successful
body's value is returned unchanged; in particular an empty target list
yields all-zero counters and an empty sleep trace. -/
theorem C8_finally :
    (∀ (c a : Bool) (d : List Dialog) (att : ℕ → Outcome),
        join_chats [] c a d att = (initResults, []))
    ∧ (∀ (links : List String) (c a : Bool) (d : List Dialog) (att : ℕ → Outcome)
        (e : String),
        join_chats_try links c a d att = Except.error e →
        join_chats links c a d att = (initResults, []))
    ∧ (∀ (links : List String) (c a : Bool) (d : List Dialog) (att : ℕ → Outcome)
        (r : Results × List ℚ),
        join_chats_try links c a d att = Except.ok r →
        join_chats links c a d att = r) := by
  refine ⟨?_, ?_, ?_⟩
  · intro c a d att; rfl
  · intro links c a d att e he
    rw [join_chats, he]
  · intro links c a d att r hr
    rw [join_chats, hr]

/-- C8 witness: an empty run and an uninitialised-client run both return
the pristine accumulator with no sleeps. -/
theorem C8_finally_witness :
    join_chats [] true true [] (fun _ => Outcome.joined) = (initResults, [])
    ∧ join_chats ["https://t.me/x"] false true [] (fun _ => Outcome.joined)
        = (initResults, []) :=
  ⟨C8_finally.1 true true [] (fun _ => Outcome.joined),
   C8_finally.2.1 ["https://t.me/x"] false true [] (fun _ => Outcome.joined)
     "Клиент не инициализирован" rfl⟩

/-! ## Progress reporting -/

/-- C9 counterexample: when the status message has been deleted, the
final-summary block makes zero send attempts, contradicting "always
attempted exactly once". -/
theorem C9_throttle_counterexample :
    finalAttempts true true true = 0 ∧ finalAttempts true true true ≠ 1 := by
  refine ⟨by decide, by decide⟩

/-- C9 (amended): an `update_status` call less than 2 seconds after the
last successful render does nothing (no edit, state unchanged); at or
beyond 2 seconds with a live message the edit is attempted, and only a
successful edit advances the throttle clock. The final summary is
attempted (at least once, with a fallback send if the edit raises) iff the
status message is present and not deleted — independently of any in-loop
failures — and is skipped entirely otherwise. -/
theorem C9_throttle_amended :
    (∀ (now last : ℚ) (present deleted editOk : Bool),
        now - last < 2 → update_status now last present deleted editOk = (false, last))
    ∧ (∀ now last : ℚ, 2 ≤ now - last →
        update_status now last true false true = (true, now))
    ∧ (∀ now last : ℚ, 2 ≤ now - last →
        update_status now last true false false = (true, last))
    ∧ (∀ editOk : Bool, 1 ≤ finalAttempts true false editOk)
    ∧ (∀ deleted editOk : Bool, finalAttempts false deleted editOk = 0)
    ∧ (∀ editOk : Bool, finalAttempts true true editOk = 0) := by
  refine ⟨?_, ?_, ?_, ?_, ?_, ?_⟩
  · intro now last p d e hlt
    rw [update_status, if_pos hlt]
  · intro now last hge
    rw [update_status, if_neg (not_lt.mpr hge)]
    rfl
  · intro now last hge
    rw [update_status, if_neg (not_lt.mpr hge)]
    rfl
  · intro e; cases e <;> decide
  · intro d e; rfl
  · intro e; rfl

/-- C9 witness: the throttle and final-summary rules at concrete times. -/
theorem C9_throttle_amended_witness :
    update_status 1 0 true false true = (false, 0)
    ∧ update_status 5 0 true false true = (true, 5)
    ∧ update_status 5 0 true false false = (true, 0) :=
  ⟨C9_throttle_amended.1 1 0 true false true (by norm_num),
   C9_throttle_amended.2.1 5 0 (by norm_num),
   C9_throttle_amended.2.2.1 5 0 (by norm_num)⟩

/-! ## Session lock release -/

lemma release_lock_not_mem (st : SMState) (name : String) (h : name ∉ st.locks) :
    release_lock st name = st := by
  rw [release_lock, if_neg h]

lemma release_lock_locks_of_mem (st : SMState) (name : String) (hm : name ∈ st.locks) :
    (release_lock st name).locks = st.locks.filter (fun n => !(n == name)) := by
  rw [release_lock, if_pos hm]
  cases st.lock_files.lookup name with
  | none => rfl
  | some p => by_cases hf : p ∈ st.fs <;> simp [hf]

/-- C10: releasing a session lock that is not held is a no-op — the lock
table, the lock-file map and the filesystem are left untouched (and the
function is total, so no exception reaches the caller) — and releasing
twice in a row equals releasing once. -/
theorem C10_release_idempotent (st : SMState) (name : String) :
    (name ∉ st.locks → release_lock st name = st)
    ∧ release_lock (release_lock st name) name = release_lock st name := by
  refine ⟨release_lock_not_mem st name, ?_⟩
  by_cases hm : name ∈ st.locks
  · have h2 : name ∉ (release_lock st name).locks := by
      rw [release_lock_locks_of_mem st name hm]
      intro hc
      have h3 := (List.mem_filter.mp hc).2
      simp at h3
    rw [release_lock_not_mem _ _ h2]
  · rw [release_lock_not_mem st name hm]
    exact release_lock_not_mem st name hm

/-- C10 witness: releasing an unheld lock on a concrete state is a no-op,
and a double release of a held lock equals a single release. -/
theorem C10_release_idempotent_witness :
    release_lock ⟨["a"], [("a", "sessions/a.lock")], ["sessions/a.lock"]⟩ "b"
      = ⟨["a"], [("a", "sessions/a.lock")], ["sessions/a.lock"]⟩
    ∧ release_lock (release_lock ⟨["a"], [("a", "sessions/a.lock")], ["sessions/a.lock"]⟩ "a") "a"
      = release_lock ⟨["a"], [("a", "sessions/a.lock")], ["sessions/a.lock"]⟩ "a" :=
  ⟨(C10_release_idempotent ⟨["a"], [("a", "sessions/a.lock")], ["sessions/a.lock"]⟩ "b").1
      (by decide),
   (C10_release_idempotent ⟨["a"], [("a", "sessions/a.lock")], ["sessions/a.lock"]⟩ "a").2⟩

end Joiner
